import Mathlib

/-!
Verification of the contact-extraction and reconciliation core of the
Business-Data-Scraper repository.

The Python sources `src/contact_scraper.py`, `src/pipeline.py` and
`src/utils/regex_patterns.py` are shallowly embedded below.  HTML parsing
(BeautifulSoup) and the network layer are external collaborators: a fetched
document is modelled as a `Page` carrying the raw markup text (scanned by the
regex patterns) together with the list of its `<a href=...>` anchors (as
BeautifulSoup would report them).  Python's `re` module is embedded by a small
backtracking regex engine with Python's priority order (leftmost position
first; at a position, alternatives left to right, greedy repetition) and
Python's `findall` capture-group convention: for a pattern containing exactly
one capturing group, `findall` returns the text of the group (the empty string
when the optional group did not participate), not the whole match.
-/

namespace BDS

/-- One `<a>` element as reported by the HTML parser (external collaborator
BeautifulSoup): its `href` attribute and its visible text (`get_text()`). -/
structure Anchor where
  href : String
  text : String
deriving DecidableEq, Repr

/-- A fetched document: `text` is the raw `html_content` string the regex
patterns scan, `anchors` the `<a>` elements with an `href` attribute that
`soup.find_all('a', href=True)` yields, in document order. -/
structure Page where
  text : String
  anchors : List Anchor
deriving DecidableEq, Repr

/-- One `{'platform': ..., 'url': ...}` entry of the social-media list. -/
structure SocialEntry where
  platform : String
  url : String
deriving DecidableEq, Repr

/-- The dictionary returned by `ContactScraper.scrape_website_contacts` (and
stored per business by `batch_scrape_contacts`).  Optional keys of the Python
dict (`source_url`, `error`) are `Option`; the error-only dicts produced on
failure have empty lists here, which is observationally the same as a missing
key under the `.get(key, [])` accesses the pipeline performs. -/
structure ContactResult where
  emails : List String
  phones : List String
  social_media : List SocialEntry
  source_url : Option String
  error : Option String
deriving DecidableEq, Repr

/-- One final-export row built by `BusinessScraperPipeline._prepare_final_data`.
The `scrape_timestamp` field is omitted: it is read from the system clock,
an external effect with no bearing on any claim. -/
structure BusinessRecord where
  business_name : String
  website_url : String
  emails : List String
  phones : List String
  social_media : List SocialEntry
  source_page : String
  errors : String
deriving DecidableEq, Repr

/-! ### String helpers (models of the Python `str` operations used) -/

/-- `p` is a prefix of `s` (character-exact, as Python `str.startswith`). -/
def hasPre : List Char → List Char → Bool
  | [], _ => true
  | _ :: _, [] => false
  | p :: ps, c :: cs => p = c && hasPre ps cs

/-- `p` occurs as a contiguous substring of `s` (Python `p in s`). -/
def hasSub (p : List Char) : List Char → Bool
  | [] => hasPre p []
  | c :: cs => hasPre p (c :: cs) || hasSub p cs

/-- Python `p in s` on strings. -/
def strIn (p s : String) : Bool := hasSub p.data s.data

/-- ASCII model of Python `str.lower` (the pages and URLs involved are
ASCII; Unicode case mapping is not modelled). -/
def sLower (s : String) : String := String.mk (s.data.map Char.toLower)

/-- Python's ASCII whitespace `[ \t\n\r\f\v]` (the class `\s` and the
characters `str.strip` removes). -/
def wsChar (c : Char) : Bool :=
  c = ' ' || c = '\t' || c = '\n' || c = '\r' ||
  c = Char.ofNat 12 || c = Char.ofNat 11

/-- ASCII model of Python `str.strip`: drop leading and trailing
whitespace. -/
def sTrim (s : String) : String :=
  String.mk (((s.data.dropWhile wsChar).reverse.dropWhile wsChar).reverse)

/-- Python `str.startswith`. -/
def sStartsWith (s p : String) : Bool := hasPre p.data s.data

/-- Worker for `removeAll`: remove every occurrence of `pat`, scanning left
to right, non-overlapping (Python `str.replace(pat, '')`); the fuel is the
input length, enough since every step consumes at least one character. -/
def removeAllAux (pat : List Char) : Nat → List Char → List Char
  | 0, s => s
  | _, [] => []
  | n + 1, c :: t =>
      if pat ≠ [] ∧ hasPre pat (c :: t) then
        removeAllAux pat n (List.drop (pat.length - 1) t)
      else c :: removeAllAux pat n t

/-- Python `s.replace(pat, '')`, the only use of `str.replace` in the
sources (stripping `mailto:` / `tel:` prefixes — case-sensitively, and from
anywhere in the string, as the source does). -/
def removeAll (pat s : String) : String :=
  String.mk (removeAllAux pat.data s.data.length s.data)

/-- Python `s.split(sep)[0]` for a one-character separator: everything
before its first occurrence (the whole string when absent). -/
def takeBefore (sep : Char) (s : String) : String :=
  String.mk (s.data.takeWhile fun c => c ≠ sep)

/-! ### A small regex engine with Python `re` semantics

Only the constructs the repository's patterns use: character classes,
concatenation, alternation (left-preferring), greedy star, and a single
capturing group.  `mrun` enumerates the ways a regex can consume a prefix of
the input, most-preferred first, exactly in Python's backtracking order; the
head of the list is the match Python reports.  A greedy-star iteration must
consume at least one character (Python's engine likewise refuses zero-width
star iterations), which bounds the iteration count by the input length. -/

inductive RE where
  | eps : RE
  | cls : (Char → Bool) → RE
  | cat : RE → RE → RE
  | alt : RE → RE → RE
  | star : RE → RE
  | grp : RE → RE

/-- Combine capture results of two sequenced subpatterns: the later capture of
the single group wins (Python keeps the last participation of a group). -/
def mergeCap (a b : Option (List Char)) : Option (List Char) :=
  match b with
  | some x => some x
  | none => a

/-- Greedy iteration of a matcher `m`, preferring more iterations, each
iteration required to consume at least one character; `n` bounds the number
of iterations (passing `input.length + 1` makes the bound vacuous). -/
def starRun (m : List Char → List (List Char × Option (List Char))) :
    Nat → List Char → List (List Char × Option (List Char))
  | 0, s => [(s, none)]
  | n + 1, s =>
      (((m s).filter fun p => p.1.length < s.length).flatMap fun p =>
        (starRun m n p.1).map fun q => (q.1, mergeCap p.2 q.2))
      ++ [(s, none)]

/-- All ways `re` can match a prefix of `s`, in Python's preference order;
each result is the remaining suffix paired with the capture of the (single)
group, if any participated. -/
def mrun : RE → List Char → List (List Char × Option (List Char))
  | .eps, s => [(s, none)]
  | .cls _, [] => []
  | .cls f, c :: t => if f c then [(t, none)] else []
  | .cat a b, s =>
      (mrun a s).flatMap fun p =>
        (mrun b p.1).map fun q => (q.1, mergeCap p.2 q.2)
  | .alt a b, s => mrun a s ++ mrun b s
  | .star r, s => starRun (mrun r) (s.length + 1) s
  | .grp r, s =>
      (mrun r s).map fun p => (p.1, some (s.take (s.length - p.1.length)))

/-- Python `re.match(pattern, s)` for a pattern anchored with `^...$`:
the regex must consume the whole string.  (Python's `$` would also accept a
single trailing newline; the candidates validated here are already stripped,
so the difference is immaterial and not modelled.) -/
def fullmatch (r : RE) (s : String) : Bool :=
  (mrun r s.data).any fun p => p.1.isEmpty

/-- One step of `re.findall`: try the pattern at the current position; on a
match emit the matched text — or, when the pattern has a capturing group
(`g = true`), the group's capture (empty when it did not participate) — and
continue after the match (after one character for a zero-width match); on no
match advance one character.  `fuel` bounds the number of steps. -/
def findallAux (r : RE) (g : Bool) : Nat → List Char → List String
  | 0, _ => []
  | fuel + 1, s =>
      match (mrun r s).head? with
      | some p =>
          let len := s.length - p.1.length
          let res : String :=
            if g then String.mk (p.2.getD []) else String.mk (s.take len)
          if len = 0 then
            match s with
            | [] => [res]
            | _ :: t => res :: findallAux r g fuel t
          else res :: findallAux r g fuel p.1
      | none =>
          match s with
          | [] => []
          | _ :: t => findallAux r g fuel t

/-- Python `re.findall(pattern, s)`, with `g` recording whether the pattern
has (exactly) one capturing group — in that case Python returns the list of
group captures instead of the full matches. -/
def findall (r : RE) (g : Bool) (s : String) : List String :=
  findallAux r g (s.length + 1) s.data

/-! ### Regex-building helpers -/

/-- Literal character. -/
def chr (c : Char) : RE := .cls fun x => x = c

/-- `r?`, greedy (prefer matching). -/
def ropt (r : RE) : RE := .alt r .eps

/-- `r+` = `r r*`. -/
def rplus (r : RE) : RE := .cat r (.star r)

/-- Concatenation of a list of regexes. -/
def cats : List RE → RE
  | [] => .eps
  | [r] => r
  | r :: rs => .cat r (cats rs)

/-- `r{n}`: exactly `n` copies. -/
def rep (r : RE) : Nat → RE
  | 0 => .eps
  | 1 => r
  | n + 1 => .cat r (rep r n)

/-- Up to `n` copies, greedy, properly nested: `(r (r ...)?)?`. -/
def upTo (r : RE) : Nat → RE
  | 0 => .eps
  | n + 1 => ropt (.cat r (upTo r n))

/-- `r{m,n}` = `r{m}` followed by up to `n - m` more, greedy. -/
def repRange (r : RE) (m n : Nat) : RE := .cat (rep r m) (upTo r (n - m))

/-- A literal string. -/
def lit (s : String) : RE := cats (s.data.map chr)

/-- `\d` (ASCII model of Python's decimal-digit class). -/
def digC : RE := .cls Char.isDigit

/-- The separator class `[-.\s]` of the phone patterns. -/
def sepC : RE := .cls fun c => c = '-' || c = '.' || wsChar c

/-! ### The patterns of `src/utils/regex_patterns.py` -/

/-- The email local-part class `[a-zA-Z0-9._%+-]`. -/
def localC : RE := .cls fun c =>
  c.isAlpha || c.isDigit || c = '.' || c = '_' || c = '%' || c = '+' || c = '-'

/-- The email domain class `[a-zA-Z0-9.-]`. -/
def domC : RE := .cls fun c => c.isAlpha || c.isDigit || c = '.' || c = '-'

/-- `[a-zA-Z]`. -/
def alphaC : RE := .cls Char.isAlpha

/-- `[a-zA-Z]{2,}` — the top-level-domain part. -/
def tldC : RE := .cat alphaC (rplus alphaC)

/-- `EMAIL_PATTERNS[0]`: `[a-zA-Z0-9._%+-]+@[a-zA-Z0-9.-]+\.[a-zA-Z]{2,}`. -/
def emailPat1 : RE := cats [rplus localC, chr '@', rplus domC, chr '.', tldC]

/-- `EMAIL_PATTERNS[1]`: `[a-zA-Z0-9._%+-]+\[at\][a-zA-Z0-9.-]+\.[a-zA-Z]{2,}`. -/
def emailPat2 : RE := cats [rplus localC, lit "[at]", rplus domC, chr '.', tldC]

/-- `EMAIL_PATTERNS[2]`: `[a-zA-Z0-9._%+-]+\(at\)[a-zA-Z0-9.-]+\.[a-zA-Z]{2,}`. -/
def emailPat3 : RE := cats [rplus localC, lit "(at)", rplus domC, chr '.', tldC]

/-- `EMAIL_PATTERNS[3]`: `[a-zA-Z0-9._%+-]+\s*@\s*[a-zA-Z0-9.-]+\.[a-zA-Z]{2,}`. -/
def emailPat4 : RE :=
  cats [rplus localC, .star (.cls wsChar), chr '@', .star (.cls wsChar),
        rplus domC, chr '.', tldC]

/-- `EMAIL_PATTERNS`, in source order; none of them has a capturing group, so
`re.findall` returns whole matches for all four.  (They are applied with
`re.IGNORECASE`, which changes nothing: every letter class already covers
both cases.) -/
def EMAIL_PATTERNS : List RE := [emailPat1, emailPat2, emailPat3, emailPat4]

/-- The optional country-code prefix `(\+?\d{1,3}[-.\s]?)?` shared by the
first four phone patterns — its parentheses are a capturing group, the only
one in each of those patterns. -/
def ccGroup : RE :=
  ropt (.grp (cats [ropt (chr '+'), repRange digC 1 3, ropt sepC]))

/-- `PHONE_PATTERNS[0]`: `(\+?\d{1,3}[-.\s]?)?\(?\d{3}\)?[-.\s]?\d{3}[-.\s]?\d{4}`. -/
def phonePat1 : RE :=
  cats [ccGroup, ropt (chr '('), rep digC 3, ropt (chr ')'), ropt sepC,
        rep digC 3, ropt sepC, rep digC 4]

/-- `PHONE_PATTERNS[1]`: `(\+?\d{1,3}[-.\s]?)?\(?\d{2}\)?[-.\s]?\d{4}[-.\s]?\d{4}`. -/
def phonePat2 : RE :=
  cats [ccGroup, ropt (chr '('), rep digC 2, ropt (chr ')'), ropt sepC,
        rep digC 4, ropt sepC, rep digC 4]

/-- `PHONE_PATTERNS[2]`: `(\+?\d{1,3}[-.\s]?)?\(?\d{4}\)?[-.\s]?\d{3}[-.\s]?\d{3}`. -/
def phonePat3 : RE :=
  cats [ccGroup, ropt (chr '('), rep digC 4, ropt (chr ')'), ropt sepC,
        rep digC 3, ropt sepC, rep digC 3]

/-- `PHONE_PATTERNS[3]`: `(\+?\d{1,3}[-.\s]?)?\(?\d{5}\)?[-.\s]?\d{3}[-.\s]?\d{2}`. -/
def phonePat4 : RE :=
  cats [ccGroup, ropt (chr '('), rep digC 5, ropt (chr ')'), ropt sepC,
        rep digC 3, ropt sepC, rep digC 2]

/-- `PHONE_PATTERNS[4]`: `\d{3}[-.\s]?\d{3}[-.\s]?\d{4}`. -/
def phonePat5 : RE :=
  cats [rep digC 3, ropt sepC, rep digC 3, ropt sepC, rep digC 4]

/-- `PHONE_PATTERNS[5]`: `\(\d{3}\)\s*\d{3}[-.\s]?\d{4}`. -/
def phonePat6 : RE :=
  cats [chr '(', rep digC 3, chr ')', .star (.cls wsChar),
        rep digC 3, ropt sepC, rep digC 4]

/-- `PHONE_PATTERNS[6]`: `\(\d{2}\)\s*\d{4}[-.\s]?\d{4}`. -/
def phonePat7 : RE :=
  cats [chr '(', rep digC 2, chr ')', .star (.cls wsChar),
        rep digC 4, ropt sepC, rep digC 4]

/-- `PHONE_PATTERNS`, each with the flag telling whether the pattern contains
a capturing group: the first four do (the country-code prefix), hence for
them `re.findall` returns the group's capture — the empty string whenever the
optional group did not participate — instead of the matched phone text. -/
def PHONE_PATTERNS : List (RE × Bool) :=
  [(phonePat1, true), (phonePat2, true), (phonePat3, true), (phonePat4, true),
   (phonePat5, false), (phonePat6, false), (phonePat7, false)]

/-- `SOCIAL_MEDIA_PATTERNS` of `src/utils/regex_patterns.py`.  Every pattern
there is a literal string (dots escaped), so `re.search(pattern, s)` is
exactly substring containment; the strings below are the unescaped literals,
per platform in source (= iteration) order. -/
def SOCIAL_MEDIA_PATTERNS : List (String × List String) :=
  [("facebook", ["facebook.com/", "fb.com/", "fb.me/", "facebook"]),
   ("twitter", ["twitter.com/", "t.co/", "twitter", "x.com/"]),
   ("linkedin", ["linkedin.com/", "linkedin", "lnkd.in/"]),
   ("instagram", ["instagram.com/", "instagr.am/", "instagram"]),
   ("youtube", ["youtube.com/", "youtu.be/", "youtube"]),
   ("pinterest", ["pinterest.com/", "pin.it/", "pinterest"]),
   ("tiktok", ["tiktok.com/", "tiktok"])]

/-! ### `ContactScraper` (src/contact_scraper.py) -/

/-- The keep-class of `_normalize_phone`'s `re.sub(r'[^\d+]', '', phone)`:
digits and every plus sign (anywhere, not only a leading one) survive. -/
def phoneStrip (s : String) : List Char :=
  s.data.filter fun c => c.isDigit || c = '+'

/-- `ContactScraper._normalize_phone`: strip everything but digits and `+`,
reject when fewer than 10 characters remain (the retained plus signs count),
then prepend a country code as needed. -/
def normalize_phone (phone : String) : Option String :=
  let digits := phoneStrip phone
  if digits.length < 10 then none
  else if digits.head? = some '+' then some (String.mk digits)
  else if digits.length = 10 then some (String.mk ('+' :: '1' :: digits))
  else if digits.length = 11 ∧ digits.head? = some '1' then
    some (String.mk ('+' :: digits))
  else some (String.mk ('+' :: digits))

/-- The four exact placeholder addresses `_is_valid_email` rejects. -/
def false_positives : List String :=
  ["email@example.com", "example@example.com",
   "your@email.com", "user@example.com"]

/-- The substrings whose presence makes `_is_valid_email` reject (checked
case-sensitively by Python's `in`). -/
def blocked_terms : List String := ["example", "domain", "test", "noreply"]

/-- `ContactScraper._is_valid_email`: the strict shape regex
`^[a-zA-Z0-9._%+-]+@[a-zA-Z0-9.-]+\.[a-zA-Z]{2,}$` (the same core as
`EMAIL_PATTERNS[0]`, anchored), then the exact placeholder list, then the
case-sensitive substring blocklist. -/
def is_valid_email (email : String) : Bool :=
  fullmatch emailPat1 email
  && !(false_positives.contains email)
  && !(blocked_terms.any fun t => strIn t email)

/-- The regex-pattern path of `_extract_emails`: every `findall` match is
lowercased, stripped, and kept only if `_is_valid_email` accepts it.  (The
patterns have no capture groups, so the `isinstance(match, tuple)` branch of
the source is dead.) -/
def patternEmails (page : Page) : List String :=
  EMAIL_PATTERNS.flatMap fun r =>
    (findall r false page.text).filterMap fun m =>
      if is_valid_email (sTrim (sLower m)) then some (sTrim (sLower m))
      else none

/-- The mailto-anchor path of `_extract_emails`: anchors whose `href` starts
with `mailto:` case-insensitively (the `re.compile(r'^mailto:', re.I)`
filter); the candidate is the href with every exact occurrence of `mailto:`
removed (`str.replace` is case-sensitive), cut at the first `?`, stripped;
it is validated in its original case and added lowercased. -/
def mailtoEmails (page : Page) : List String :=
  (page.anchors.filter fun a => sStartsWith (sLower a.href) "mailto:").filterMap
    fun a =>
      if is_valid_email (sTrim (takeBefore '?' (removeAll "mailto:" a.href)))
      then some (sLower (sTrim (takeBefore '?' (removeAll "mailto:" a.href))))
      else none

/-- `ContactScraper._extract_emails`: both paths accumulate into one Python
`set`, returned as a list — modelled as order-preserving deduplication; only
membership is meaningful. -/
def extract_emails (page : Page) : List String :=
  (patternEmails page ++ mailtoEmails page).dedup

/-- The regex-pattern path of `_extract_phones`: for each pattern, each
`findall` result (the capture of the country-code group for the first four
patterns, the whole match for the last three) is normalized; `None` results
are dropped. -/
def patternPhones (page : Page) : List String :=
  PHONE_PATTERNS.flatMap fun rg =>
    (findall rg.1 rg.2 page.text).filterMap fun m => normalize_phone m

/-- The tel-anchor path of `_extract_phones`: anchors whose `href` starts
with `tel:` case-insensitively; the candidate is the href with every exact
occurrence of `tel:` removed, stripped, then normalized. -/
def telPhones (page : Page) : List String :=
  (page.anchors.filter fun a => sStartsWith (sLower a.href) "tel:").filterMap
    fun a => normalize_phone (sTrim (removeAll "tel:" a.href))

/-- `ContactScraper._extract_phones`: both paths pooled into a set, returned
as a list. -/
def extract_phones (page : Page) : List String :=
  (patternPhones page ++ telPhones page).dedup

/-- Models Python's `urllib.parse.urljoin` (standard library, external to the
repository) for the cases exercised here: a link target carrying its own
scheme (it contains `://`) is returned unchanged; a relative target is
resolved against the base, approximated as concatenation — no theorem below
depends on the relative case. -/
def urljoin (base url : String) : String :=
  if strIn "://" url then url else base ++ "/" ++ url

/-- The per-anchor body of `ContactScraper._extract_social_media`: the href
and visible text are lowercased; every platform of `SOCIAL_MEDIA_PATTERNS`
is tried in order and contributes one `{platform, urljoin(base, href)}`
entry as soon as any of its patterns occurs in the href or the text (the
`break` in the source leaves only the inner pattern loop, so matching
continues with the next platform). -/
def anchorSocial (base : String) (a : Anchor) : List SocialEntry :=
  let href := sLower a.href
  let text := sLower a.text
  SOCIAL_MEDIA_PATTERNS.filterMap fun pp =>
    if pp.2.any (fun p => strIn p href || strIn p text) then
      some ⟨pp.1, urljoin base href⟩
    else none

/-- `ContactScraper._extract_social_media`: all anchors, in document order. -/
def extract_social_media (page : Page) (base_url : String) : List SocialEntry :=
  page.anchors.flatMap (anchorSocial base_url)

/-- The indicator substrings of `_find_contact_page`. -/
def contact_indicators : List String :=
  ["contact", "contact-us", "contact.html", "contact.php",
   "about", "about-us", "connect", "get-in-touch"]

/-- `ContactScraper._find_contact_page`: the first anchor whose lowercased
href or text contains an indicator, resolved against the base URL (the href
is already lowercased when joined). -/
def find_contact_page (page : Page) (base_url : String) : Option String :=
  (page.anchors.find? fun a =>
      contact_indicators.any fun ind =>
        strIn ind (sLower a.href) || strIn ind (sLower a.text)).map
    fun a => urljoin base_url (sLower a.href)

/-- The empty-lists-plus-error dictionaries the scraper returns on its three
failure paths (no URL, fetch returned nothing, exception caught). -/
def emptyResult (err : String) : ContactResult :=
  ⟨[], [], [], none, some err⟩

/-- The contact-page fallback of `scrape_website_contacts`: when the primary
page yielded neither emails nor phones, follow the first contact-page
candidate (if truthy and distinct from the page URL), extend the email and
phone lists with the fallback page's extraction when its fetch succeeds, and
propagate an exception raised by that fetch (`Except.error`) to the
enclosing handler. -/
def fallbackPhase (fetch : String → Except String (Option Page))
    (url : String) (page : Page) :
    Except String (List String × List String) :=
  if (extract_emails page).isEmpty && (extract_phones page).isEmpty then
    match find_contact_page page url with
    | some cp =>
        if cp ≠ "" ∧ cp ≠ url then
          match fetch cp with
          | .error e => .error e
          | .ok (some cpage) =>
              .ok (extract_emails page ++ extract_emails cpage,
                   extract_phones page ++ extract_phones cpage)
          | .ok none => .ok (extract_emails page, extract_phones page)
        else .ok (extract_emails page, extract_phones page)
    | none => .ok (extract_emails page, extract_phones page)
  else .ok (extract_emails page, extract_phones page)

/-- The body of `scrape_website_contacts`'s `try:` block.  The fetch
collaborator is a parameter: `Except.error e` models an exception escaping
`_fetch_url` (anything but the `requests.RequestException`s it catches),
`Except.ok none` models `_fetch_url` returning `None`, `Except.ok (some p)`
a fetched document.  An exception anywhere inside the block — including the
contact-page fallback fetch — propagates to the enclosing handler. -/
def scrapeBody (fetch : String → Except String (Option Page)) (url : String) :
    Except String ContactResult :=
  match fetch url with
  | .error e => .error e
  | .ok none => .ok (emptyResult "Failed to fetch URL")
  | .ok (some page) =>
      match fallbackPhase fetch url page with
      | .error e => .error e
      | .ok ep =>
          .ok ⟨ep.1.dedup, ep.2.dedup, extract_social_media page url,
               some url, none⟩

/-- `ContactScraper.scrape_website_contacts`: empty-URL guard, then the
`try:` body with every caught exception converted to an error dictionary.
The `business_name` argument is used only for logging in the source. -/
def scrape_website_contacts (fetch : String → Except String (Option Page))
    (url _business_name : String) : ContactResult :=
  if url = "" then emptyResult "No URL provided"
  else
    match scrapeBody fetch url with
    | .ok r => r
    | .error e => emptyResult e

/-- `ContactScraper.batch_scrape_contacts`: only businesses with a truthy URL
are submitted to the worker pool; each worker's result (exceptions already
converted to error dictionaries inside `scrape_website_contacts` /
`scrape_single`) is collected keyed by the business.  The thread pool only
affects dictionary insertion order (completion order), which Python callers
may not rely on; the model keeps submission order, preserving exactly the
key-to-value association. -/
def batch_scrape_contacts (fetch : String → Except String (Option Page))
    (business_urls : List (String × String)) : List (String × ContactResult) :=
  (business_urls.filter fun p => decide (p.2 ≠ "")).map
    fun p => (p.1, scrape_website_contacts fetch p.2 p.1)

/-! ### `BusinessScraperPipeline._prepare_final_data` (src/pipeline.py) -/

/-- The `{}` default of `self.contact_info.get(business_name, {})`: every
subsequent `.get(key, default)` yields its default. -/
def emptyContacts : ContactResult := ⟨[], [], [], none, none⟩

/-- One row of `_prepare_final_data`'s loop: every field present, with the
`.get` defaults for absent keys. -/
def mkRecord (b url : String) (contacts : ContactResult) : BusinessRecord :=
  ⟨b, url, contacts.emails, contacts.phones, contacts.social_media,
   contacts.source_url.getD "", contacts.error.getD ""⟩

/-- `BusinessScraperPipeline._prepare_final_data`: iterate the URL map in
order; for each business, look its contacts up (missing entry → empty), emit
a record unconditionally, and additionally append the business to the
failed-business list when its URL is falsy or both its email and phone lists
are falsy.  Returns (final_data, failed_businesses). -/
def prepare_final_data :
    List (String × String) → List (String × ContactResult) →
    List BusinessRecord × List String
  | [], _ => ([], [])
  | (b, url) :: rest, contact_info =>
      let contacts := (contact_info.lookup b).getD emptyContacts
      let r := prepare_final_data rest contact_info
      (mkRecord b url contacts :: r.1,
       (if url = "" ∨ (contacts.emails = [] ∧ contacts.phones = []) then [b]
        else []) ++ r.2)

/-! ## Helper lemmas -/

/-- Every character surviving `phoneStrip` is a digit or a plus sign. -/
theorem mem_phoneStrip {s : String} {c : Char} (h : c ∈ phoneStrip s) :
    c ∈ s.data ∧ (c.isDigit ∨ c = '+') := by
  have h' := List.mem_filter.mp h
  refine ⟨h'.1, ?_⟩
  have := h'.2
  simp only [Bool.or_eq_true, decide_eq_true_eq] at this
  exact this

/-- When the input contains no plus sign, `phoneStrip` keeps digits only. -/
theorem phoneStrip_all_digit {s : String} (h : '+' ∉ s.data) :
    ∀ c ∈ phoneStrip s, c.isDigit := by
  intro c hc
  rcases mem_phoneStrip hc with ⟨hmem, hd | hp⟩
  · exact hd
  · exact absurd (hp ▸ hmem) h

/-- The platforms of the entries one anchor-shaped `filterMap` produces form
a sublist of the platform-key list it scans. -/
theorem map_platform_filterMap {α : Type} (l : List (String × α))
    (g : String × α → Bool) (u : String) :
    ((l.filterMap fun pp =>
        if g pp then some (⟨pp.1, u⟩ : SocialEntry) else none).map
      SocialEntry.platform).Sublist (l.map Prod.fst) := by
  induction l with
  | nil => simp
  | cons p t ih =>
      rw [List.filterMap_cons, List.map_cons]
      by_cases hg : g p
      · rw [if_pos hg, List.map_cons]
        exact ih.cons₂ _
      · rw [if_neg hg]
        exact ih.cons _

/-! ## C1 — phone-normalization invariant -/

/-- C1 counterexample: `_normalize_phone` keeps every `+` of the input and
counts it toward the ≥10 length check, so the input `"+1 (23) 456-789"`
(a plus sign and nine digits) is accepted and yields `"+123456789"`, which
contains only 9 digits — refuting “at least 10 digits, never fewer”. -/
theorem C1_counterexample :
    normalize_phone "+1 (23) 456-789" = some "+123456789" ∧
    ¬ 10 ≤ ("+123456789".data.filter Char.isDigit).length := by
  constructor
  · decide
  · decide

/-- C1 amended: whenever `_normalize_phone` returns a result, the result is
prefixed with `+` and the stripped candidate (digits together with every
retained plus sign) has length at least 10 — and inputs whose stripped form
is shorter than 10 characters are rejected; the “at least 10 digits” reading
holds whenever the input contains no plus sign. -/
theorem C1_amended (s r : String) (h : normalize_phone s = some r) :
    r.data.head? = some '+' ∧ 10 ≤ (phoneStrip s).length ∧
    ('+' ∉ s.data → 10 ≤ (r.data.filter Char.isDigit).length) := by
  unfold normalize_phone at h
  by_cases h10 : (phoneStrip s).length < 10
  · simp [h10] at h
  · have hlen : 10 ≤ (phoneStrip s).length := Nat.le_of_not_lt h10
    rw [if_neg h10] at h
    by_cases hplus : (phoneStrip s).head? = some '+'
    · rw [if_pos hplus] at h
      have hr : r = String.mk (phoneStrip s) := (Option.some.injEq _ _ ▸ h).symm
      subst hr
      refine ⟨hplus, hlen, fun hnp => ?_⟩
      exfalso
      have hmem : '+' ∈ phoneStrip s := by
        cases hps : phoneStrip s with
        | nil => rw [hps] at hplus; simp at hplus
        | cons c t =>
            rw [hps] at hplus
            simp only [List.head?_cons, Option.some.injEq] at hplus
            rw [hplus]
            exact List.mem_cons_self _ _
      exact hnp (mem_phoneStrip hmem).1
    · rw [if_neg hplus] at h
      have hdig : ∀ hnp : '+' ∉ s.data,
          (phoneStrip s).filter Char.isDigit = phoneStrip s := fun hnp =>
        List.filter_eq_self.mpr (phoneStrip_all_digit hnp)
      by_cases he10 : (phoneStrip s).length = 10
      · rw [if_pos he10] at h
        have hr : r = String.mk ('+' :: '1' :: phoneStrip s) :=
          (Option.some.injEq _ _ ▸ h).symm
        subst hr
        refine ⟨rfl, hlen, fun hnp => ?_⟩
        show 10 ≤ (List.filter Char.isDigit ('+' :: '1' :: phoneStrip s)).length
        rw [List.filter_cons_of_neg (by decide),
            List.filter_cons_of_pos (by decide), hdig hnp]
        simp [he10]
      · rw [if_neg he10] at h
        by_cases h11 : (phoneStrip s).length = 11 ∧
            (phoneStrip s).head? = some '1'
        · rw [if_pos h11] at h
          have hr : r = String.mk ('+' :: phoneStrip s) :=
            (Option.some.injEq _ _ ▸ h).symm
          subst hr
          refine ⟨rfl, hlen, fun hnp => ?_⟩
          show 10 ≤ (List.filter Char.isDigit ('+' :: phoneStrip s)).length
          rw [List.filter_cons_of_neg (by decide), hdig hnp]
          omega
        · rw [if_neg h11] at h
          have hr : r = String.mk ('+' :: phoneStrip s) :=
            (Option.some.injEq _ _ ▸ h).symm
          subst hr
          refine ⟨rfl, hlen, fun hnp => ?_⟩
          show 10 ≤ (List.filter Char.isDigit ('+' :: phoneStrip s)).length
          rw [List.filter_cons_of_neg (by decide), hdig hnp]
          omega

/-- C1 witness: the amended statement applied at the spec's own example,
`normalize_phone("(206) 555-0100") = "+12065550100"`. -/
theorem C1_witness :
    "+12065550100".data.head? = some '+' ∧
    10 ≤ (phoneStrip "(206) 555-0100").length ∧
    ('+' ∉ "(206) 555-0100".data →
      10 ≤ ("+12065550100".data.filter Char.isDigit).length) :=
  C1_amended "(206) 555-0100" "+12065550100" (by decide)

/-! ## C2 — one platform per anchor -/

/-- C2 counterexample: the `break` in `_extract_social_media` leaves only the
inner pattern loop, so the single anchor `https://facebook.com/twitter`
matches the `facebook.com/` pattern of facebook and then also the `twitter`
pattern of twitter, contributing two entries — refuting “at most one
platform / at most one entry per anchor”. -/
theorem C2_counterexample :
    extract_social_media ⟨"", [⟨"https://facebook.com/twitter", ""⟩]⟩
        "https://biz.example" =
      [⟨"facebook", "https://facebook.com/twitter"⟩,
       ⟨"twitter", "https://facebook.com/twitter"⟩] ∧
    (extract_social_media ⟨"", [⟨"https://facebook.com/twitter", ""⟩]⟩
        "https://biz.example").length = 2 := by
  constructor
  · decide
  · decide

/-- C2 amended: within each platform the first matching pattern wins, so one
anchor contributes at most one entry per platform — its entries carry
pairwise-distinct platforms, in the fixed platform order — but an anchor
matching the pattern sets of several platforms contributes one entry for
each of them. -/
theorem C2_amended (base t : String) (a : Anchor) :
    extract_social_media ⟨t, [a]⟩ base = anchorSocial base a ∧
    ((anchorSocial base a).map SocialEntry.platform).Sublist
      (SOCIAL_MEDIA_PATTERNS.map Prod.fst) ∧
    ((anchorSocial base a).map SocialEntry.platform).Nodup := by
  have he : anchorSocial base a =
      SOCIAL_MEDIA_PATTERNS.filterMap fun pp =>
        if pp.2.any (fun p => strIn p (sLower a.href) || strIn p (sLower a.text))
        then some ⟨pp.1, urljoin base (sLower a.href)⟩ else none := rfl
  refine ⟨by simp [extract_social_media], ?_, ?_⟩
  · rw [he]
    exact map_platform_filterMap SOCIAL_MEDIA_PATTERNS _ _
  · rw [he]
    exact List.Nodup.sublist (map_platform_filterMap SOCIAL_MEDIA_PATTERNS _ _)
      (by decide)

/-! ## C3 — phone groupings coverage -/

/-- C3: the page text `"Call 1234 567 890"` contains a phone number in the
4-3-3 grouping the pattern set is meant to cover, and whose normalized form
is `"+11234567890"`, yet phone extraction returns nothing: the matching
pattern `PHONE_PATTERNS[2]` contains one capturing group (the optional
country code), so `re.findall` yields only the group's capture — the empty
string here — which normalization rejects.  The `''.join(match)` branch
meant to recombine capture groups is dead (it fires only on tuples, which
`findall` produces only for two or more groups).  The code contradicts the
patterns' stated coverage; the claim describes the intent. -/
theorem C3_code_bug :
    extract_phones ⟨"Call 1234 567 890", []⟩ = [] ∧
    normalize_phone "1234 567 890" = some "+11234567890" ∧
    findall phonePat3 true "Call 1234 567 890" = [""] := by
  refine ⟨by decide, by decide, by decide⟩

/-! ## C4 — placeholder emails excluded -/

/-- C4 counterexample: the mailto path of `_extract_emails` validates the
candidate in its original case and only then lowercases it into the set, so
the anchor `mailto:Email@EXAMPLE.com` — whose mixed-case candidate contains
none of the lowercase blocked substrings — puts the enumerated placeholder
`email@example.com` into the result (the pattern path separately finds and
correctly rejects the same address in the markup). -/
theorem C4_counterexample :
    "email@example.com" ∈ extract_emails
      ⟨"<a href=\"mailto:Email@EXAMPLE.com\">contact</a>",
       [⟨"mailto:Email@EXAMPLE.com", "contact"⟩]⟩ ∧
    extract_emails
      ⟨"<a href=\"mailto:Email@EXAMPLE.com\">contact</a>",
       [⟨"mailto:Email@EXAMPLE.com", "contact"⟩]⟩ = ["email@example.com"] := by
  refine ⟨by decide, by decide⟩

/-- C4 amended: every address in the extracted set is a validated candidate
or the lowercasing of one — validation (shape, placeholder list and blocked
substrings) is applied to the pattern-path candidate after lowercasing, so
there the exclusion holds of the emitted address itself, but to the
mailto-path candidate before lowercasing, so a mixed-case placeholder can
enter the set in lowercased form. -/
theorem C4_amended (page : Page) (x : String)
    (hx : x ∈ extract_emails page) :
    (∃ c, is_valid_email c = true ∧ (x = c ∨ x = sLower c)) ∧
    (x ∈ patternEmails page → is_valid_email x = true) := by
  have hpat : ∀ y, y ∈ patternEmails page → is_valid_email y = true := by
    intro y hy
    rcases List.mem_flatMap.mp hy with ⟨r, _, hmem⟩
    rcases List.mem_filterMap.mp hmem with ⟨m, _, hf⟩
    by_cases hv : is_valid_email (sTrim (sLower m))
    · rw [if_pos hv, Option.some.injEq] at hf
      rw [← hf]
      exact hv
    · rw [if_neg hv] at hf
      exact absurd hf (Option.noConfusion)
  refine ⟨?_, hpat x⟩
  have hx' := List.mem_dedup.mp hx
  rcases List.mem_append.mp hx' with hp | hm
  · exact ⟨x, hpat x hp, Or.inl rfl⟩
  · rcases List.mem_filterMap.mp hm with ⟨a, _, hf⟩
    by_cases hv : is_valid_email (sTrim (takeBefore '?' (removeAll "mailto:" a.href)))
    · rw [if_pos hv, Option.some.injEq] at hf
      exact ⟨_, hv, Or.inr hf.symm⟩
    · rw [if_neg hv] at hf
      exact absurd hf (Option.noConfusion)

/-- C4 witness: the amended statement at a legitimate mailto anchor. -/
theorem C4_witness :
    (∃ c, is_valid_email c = true ∧
      ("info@biz.com" = c ∨ "info@biz.com" = sLower c)) ∧
    ("info@biz.com" ∈ patternEmails ⟨"", [⟨"mailto:info@biz.com", "contact"⟩]⟩ →
      is_valid_email "info@biz.com" = true) :=
  C4_amended ⟨"", [⟨"mailto:info@biz.com", "contact"⟩]⟩ "info@biz.com"
    (by decide)

/-! ## Further helper lemmas, for the batch and reconciliation claims -/

/-- In an association list with pairwise-distinct keys, a key determines its
value. -/
theorem keys_nodup_unique {β : Type} {l : List (String × β)}
    (hnd : (l.map Prod.fst).Nodup) {b : String} {x y : β}
    (hx : (b, x) ∈ l) (hy : (b, y) ∈ l) : x = y := by
  induction l with
  | nil => cases hx
  | cons p t ih =>
      rw [List.map_cons, List.nodup_cons] at hnd
      rcases List.mem_cons.mp hx with hex | htx
      · rcases List.mem_cons.mp hy with hey | hty
        · rw [← hex] at hey
          exact ((Prod.mk.injEq _ _ _ _).mp hey.symm).2
        · exfalso
          apply hnd.1
          rw [← hex]
          exact List.mem_map.mpr ⟨(b, y), hty, rfl⟩
      · rcases List.mem_cons.mp hy with hey | hty
        · exfalso
          apply hnd.1
          rw [← hey]
          exact List.mem_map.mpr ⟨(b, x), htx, rfl⟩
        · exact ih hnd.2 htx hty

/-- A key absent from an association list's key set looks up to `none`. -/
theorem lookup_eq_none_of_not_mem {β : Type} (l : List (String × β))
    (b : String) (h : b ∉ l.map Prod.fst) : l.lookup b = none := by
  induction l with
  | nil => rfl
  | cons p t ih =>
      rw [List.map_cons] at h
      have h1 : b ≠ p.1 := fun he => h (he ▸ List.mem_cons_self _ _)
      have h2 : b ∉ t.map Prod.fst := fun hm => h (List.mem_cons_of_mem _ hm)
      simp [List.lookup, beq_eq_false_iff_ne.mpr h1, ih h2]

/-- Looking a key up in the per-item image of an association list with
pairwise-distinct keys yields the image of its entry. -/
theorem lookup_map_pairs {β : Type} (f : String × String → β)
    (l : List (String × String)) (b u : String)
    (hmem : (b, u) ∈ l) (hnd : (l.map Prod.fst).Nodup) :
    (l.map fun p => (p.1, f p)).lookup b = some (f (b, u)) := by
  induction l with
  | nil => cases hmem
  | cons p t ih =>
      rw [List.map_cons, List.nodup_cons] at hnd
      rcases List.mem_cons.mp hmem with he | ht
      · rw [← he]
        simp [List.lookup]
      · have hb : b ∈ t.map Prod.fst := List.mem_map.mpr ⟨(b, u), ht, rfl⟩
        have hne : b ≠ p.1 := fun hq => hnd.1 (hq ▸ hb)
        rw [List.map_cons]
        simp only [List.lookup, beq_eq_false_iff_ne.mpr hne]
        exact ih ht hnd.2

/-- A fetch that raises makes `scrape_website_contacts` return the caught
exception's error dictionary. -/
theorem scrape_error (fetch : String → Except String (Option Page))
    (u b e : String) (hu : u ≠ "") (hf : fetch u = .error e) :
    scrape_website_contacts fetch u b = emptyResult e := by
  unfold scrape_website_contacts scrapeBody
  rw [if_neg hu, hf]

/-- A successful run of the `try:` body yields either a result with no error
key and the page URL as `source_url`, or the fetch-failed dictionary. -/
theorem scrapeBody_ok (fetch : String → Except String (Option Page))
    (url : String) (r : ContactResult) (h : scrapeBody fetch url = .ok r) :
    (r.error = none ∧ r.source_url = some url) ∨
    r = emptyResult "Failed to fetch URL" := by
  unfold scrapeBody at h
  cases hf : fetch url with
  | error e => rw [hf] at h; exact absurd h (by simp)
  | ok html? =>
      rw [hf] at h
      cases html? with
      | none =>
          right
          rw [Except.ok.injEq] at h
          exact h.symm
      | some page =>
          have h2 : (match fallbackPhase fetch url page with
              | Except.error e => Except.error e
              | Except.ok ep =>
                  Except.ok (⟨ep.1.dedup, ep.2.dedup,
                    extract_social_media page url, some url, none⟩ :
                    ContactResult)) = Except.ok r := h
          cases hfb : fallbackPhase fetch url page with
          | error e => rw [hfb] at h2; exact absurd h2 (by simp)
          | ok ep =>
              rw [hfb, Except.ok.injEq] at h2
              left
              rw [← h2]
              exact ⟨rfl, rfl⟩

/-- Every business of the URL map yields its record in the reconciled
output, built from its contact lookup with the empty-contacts default. -/
theorem prepare_mem (urls : List (String × String))
    (ci : List (String × ContactResult)) (b u : String)
    (hmem : (b, u) ∈ urls) :
    mkRecord b u ((ci.lookup b).getD emptyContacts) ∈
      (prepare_final_data urls ci).1 := by
  induction urls with
  | nil => cases hmem
  | cons p t ih =>
      obtain ⟨pb, pu⟩ := p
      rcases List.mem_cons.mp hmem with he | ht
      · obtain ⟨h1, h2⟩ := (Prod.mk.injEq _ _ _ _).mp he
        rw [← h1, ← h2, prepare_final_data]
        exact List.mem_cons_self _ _
      · rw [prepare_final_data]
        exact List.mem_cons_of_mem _ (ih ht)

/-- A business of the URL map whose URL is falsy, or whose looked-up contact
lists are both empty, lands in the failed-business list. -/
theorem prepare_failed_mem (urls : List (String × String))
    (ci : List (String × ContactResult)) (b u : String)
    (hmem : (b, u) ∈ urls)
    (hfail : u = "" ∨ (((ci.lookup b).getD emptyContacts).emails = [] ∧
      ((ci.lookup b).getD emptyContacts).phones = [])) :
    b ∈ (prepare_final_data urls ci).2 := by
  induction urls with
  | nil => cases hmem
  | cons p t ih =>
      obtain ⟨pb, pu⟩ := p
      rcases List.mem_cons.mp hmem with he | ht
      · obtain ⟨h1, h2⟩ := (Prod.mk.injEq _ _ _ _).mp he
        rw [← h1, ← h2, prepare_final_data]
        rw [if_pos hfail]
        exact List.mem_append_left _ (List.mem_cons_self _ _)
      · rw [prepare_final_data]
        exact List.mem_append_right _ (ih ht)

/-- The reconciled records carry exactly the URL-map names, in order. -/
theorem prepare_names (urls : List (String × String))
    (ci : List (String × ContactResult)) :
    (prepare_final_data urls ci).1.map BusinessRecord.business_name =
      urls.map Prod.fst := by
  induction urls with
  | nil => rfl
  | cons p t ih =>
      obtain ⟨pb, pu⟩ := p
      rw [prepare_final_data, List.map_cons, List.map_cons, ih]
      rfl

/-! ## C5 — batch completeness and per-item failure isolation -/

/-- C5: with every URL non-empty, `batch_scrape_contacts` returns one entry
per business, keyed by it — and an item whose fetch raises is converted into
an empty-lists entry carrying the exception text in its error field, leaving
every sibling entry in place. -/
theorem C5_batch (fetch : String → Except String (Option Page))
    (items : List (String × String)) (hne : ∀ p ∈ items, p.2 ≠ "") :
    (batch_scrape_contacts fetch items).map Prod.fst = items.map Prod.fst ∧
    ∀ b u e, (b, u) ∈ items → (items.map Prod.fst).Nodup →
      fetch u = .error e →
      (batch_scrape_contacts fetch items).lookup b = some (emptyResult e) := by
  have hfil : items.filter (fun p => decide (p.2 ≠ "")) = items :=
    List.filter_eq_self.mpr fun p hp => decide_eq_true (hne p hp)
  constructor
  · unfold batch_scrape_contacts
    rw [hfil, List.map_map]
    exact List.map_congr_left fun p _ => rfl
  · intro b u e hmem hnd hf
    unfold batch_scrape_contacts
    rw [hfil, lookup_map_pairs _ items b u hmem hnd]
    rw [scrape_error fetch u b e (hne (b, u) hmem) hf]

/-- C5 witness: one business whose fetch raises. -/
theorem C5_witness :
    (batch_scrape_contacts (fun _ => Except.error "boom")
        [("A", "http://a.example")]).map Prod.fst =
      [("A", "http://a.example")].map Prod.fst ∧
    ∀ b u e, (b, u) ∈ [("A", "http://a.example")] →
      ([("A", "http://a.example")].map Prod.fst).Nodup →
      (fun _ => Except.error "boom" :
        String → Except String (Option Page)) u = .error e →
      (batch_scrape_contacts (fun _ => Except.error "boom")
        [("A", "http://a.example")]).lookup b = some (emptyResult e) :=
  C5_batch (fun _ => Except.error "boom") [("A", "http://a.example")]
    (by decide)

/-! ## C6 — failed businesses flagged but still emitted -/

/-- C6: a business of the URL map with a falsy URL, or with both looked-up
contact lists empty, is appended to the failed-business list and still gets
a record in the reconciled output whose (possibly empty) email, phone and
social fields are present — it is never omitted. -/
theorem C6_failed_emitted (urls : List (String × String))
    (ci : List (String × ContactResult)) (b u : String)
    (hmem : (b, u) ∈ urls)
    (hfail : u = "" ∨ (((ci.lookup b).getD emptyContacts).emails = [] ∧
      ((ci.lookup b).getD emptyContacts).phones = [])) :
    b ∈ (prepare_final_data urls ci).2 ∧
    ∃ r ∈ (prepare_final_data urls ci).1,
      r.business_name = b ∧
      r.emails = ((ci.lookup b).getD emptyContacts).emails ∧
      r.phones = ((ci.lookup b).getD emptyContacts).phones ∧
      r.social_media = ((ci.lookup b).getD emptyContacts).social_media :=
  ⟨prepare_failed_mem urls ci b u hmem hfail,
   ⟨mkRecord b u ((ci.lookup b).getD emptyContacts),
    prepare_mem urls ci b u hmem, rfl, rfl, rfl, rfl⟩⟩

/-- C6 witness: a business with an empty URL and no contact entry. -/
theorem C6_witness :
    "B" ∈ (prepare_final_data [("B", "")] []).2 ∧
    ∃ r ∈ (prepare_final_data [("B", "")] []).1,
      r.business_name = "B" ∧
      r.emails = ((List.lookup "B" []).getD emptyContacts).emails ∧
      r.phones = ((List.lookup "B" []).getD emptyContacts).phones ∧
      r.social_media = ((List.lookup "B" []).getD emptyContacts).social_media :=
  C6_failed_emitted [("B", "")] [] "B" "" (by decide) (Or.inl rfl)

/-! ## C7 — exactly one record per URL-map name -/

/-- C7: the reconciled output carries exactly one record per name of the URL
map (whose keys are pairwise distinct, being Python dictionary keys), a
missing contact lookup producing the empty record rather than an error, and
a name absent from the URL map never appears in the output. -/
theorem C7_reconcile (urls : List (String × String))
    (ci : List (String × ContactResult))
    (hnd : (urls.map Prod.fst).Nodup) :
    (prepare_final_data urls ci).1.map BusinessRecord.business_name =
      urls.map Prod.fst ∧
    (∀ n ∈ urls.map Prod.fst,
      ((prepare_final_data urls ci).1.map BusinessRecord.business_name).count n
        = 1) ∧
    (∀ n, n ∉ urls.map Prod.fst →
      n ∉ (prepare_final_data urls ci).1.map BusinessRecord.business_name) ∧
    (∀ b u, (b, u) ∈ urls → ci.lookup b = none →
      ∃ r ∈ (prepare_final_data urls ci).1, r.business_name = b ∧
        r.emails = [] ∧ r.phones = [] ∧ r.social_media = [] ∧
        r.errors = "") := by
  refine ⟨prepare_names urls ci, ?_, ?_, ?_⟩
  · intro n hn
    rw [prepare_names]
    exact List.count_eq_one_of_mem hnd hn
  · intro n hn
    rw [prepare_names]
    exact hn
  · intro b u hm hl
    have h := prepare_mem urls ci b u hm
    rw [hl] at h
    exact ⟨mkRecord b u emptyContacts, h, rfl, rfl, rfl, rfl, rfl⟩

/-- C7 witness: two URL-map names, one without a contact entry. -/
theorem C7_witness :
    (prepare_final_data [("A", "http://a.example"), ("B", "")] []).1.map
        BusinessRecord.business_name =
      [("A", "http://a.example"), ("B", "")].map Prod.fst ∧
    (∀ n ∈ [("A", "http://a.example"), ("B", "")].map Prod.fst,
      ((prepare_final_data [("A", "http://a.example"), ("B", "")] []).1.map
          BusinessRecord.business_name).count n = 1) ∧
    (∀ n, n ∉ [("A", "http://a.example"), ("B", "")].map Prod.fst →
      n ∉ (prepare_final_data [("A", "http://a.example"), ("B", "")] []).1.map
          BusinessRecord.business_name) ∧
    (∀ b u, (b, u) ∈ [("A", "http://a.example"), ("B", "")] →
      List.lookup b ([] : List (String × ContactResult)) = none →
      ∃ r ∈ (prepare_final_data [("A", "http://a.example"), ("B", "")] []).1,
        r.business_name = b ∧ r.emails = [] ∧ r.phones = [] ∧
        r.social_media = [] ∧ r.errors = "") :=
  C7_reconcile [("A", "http://a.example"), ("B", "")] [] (by decide)

/-! ## C8 — facebook classification and URL resolution -/

/-- C8 counterexample: the anchor `https://facebook.com/MyBiz` is classified
as facebook, but `_extract_social_media` lowercases the href before both
matching and joining, so the emitted URL is `https://facebook.com/mybiz` —
the resolved link target is not preserved case-exactly as the claim
states. -/
theorem C8_counterexample :
    extract_social_media ⟨"", [⟨"https://facebook.com/MyBiz", "MyBiz"⟩]⟩
        "https://www.mybiz.com" =
      [⟨"facebook", "https://facebook.com/mybiz"⟩] ∧
    (⟨"facebook", "https://facebook.com/MyBiz"⟩ : SocialEntry) ∉
      extract_social_media ⟨"", [⟨"https://facebook.com/MyBiz", "MyBiz"⟩]⟩
        "https://www.mybiz.com" := by
  refine ⟨by decide, by decide⟩

/-- C8 amended: the anchor is classified as platform facebook, and the
entry's URL is the lowercased link target resolved against the base URL
(identical to the link target whenever it is already lowercase). -/
theorem C8_amended :
    (extract_social_media ⟨"", [⟨"https://facebook.com/MyBiz", "MyBiz"⟩]⟩
        "https://www.mybiz.com").map SocialEntry.platform = ["facebook"] ∧
    (extract_social_media ⟨"", [⟨"https://facebook.com/MyBiz", "MyBiz"⟩]⟩
        "https://www.mybiz.com").map SocialEntry.url =
      [urljoin "https://www.mybiz.com" (sLower "https://facebook.com/MyBiz")] := by
  refine ⟨by decide, by decide⟩

/-! ## C9 — fetch failures contained, result shape -/

/-- C9 counterexample: the failure dictionaries of
`scrape_website_contacts` carry no `source_url` key at all (and success
dictionaries carry no `error` key), so a fetch failure yields a result
without the `source_url` string the ContactRecord shape requires. -/
theorem C9_counterexample :
    (scrape_website_contacts (fun _ => Except.ok none)
      "http://x.example" "B").source_url = none ∧
    (scrape_website_contacts (fun _ => Except.ok none)
      "http://x.example" "B").error = some "Failed to fetch URL" := by
  refine ⟨by decide, by decide⟩

/-- C9 amended: for a non-empty URL, any failure — fetch returning nothing,
or an exception anywhere in the body — yields exactly the empty-lists
dictionary with a populated error field and no `source_url` (never an
escalated exception: the function is total); and whenever no error is
reported, the result carries `source_url = url`. -/
theorem C9_amended (fetch : String → Except String (Option Page))
    (url b : String) (h : url ≠ "") :
    ((scrape_website_contacts fetch url b).error = none →
      (scrape_website_contacts fetch url b).source_url = some url) ∧
    (∀ e, (scrape_website_contacts fetch url b).error = some e →
      scrape_website_contacts fetch url b = emptyResult e) := by
  unfold scrape_website_contacts
  rw [if_neg h]
  cases hsb : scrapeBody fetch url with
  | error e =>
      refine ⟨fun hc => ?_, fun e' he' => ?_⟩
      · exact absurd hc (by simp [emptyResult])
      · simp only [emptyResult, Option.some.injEq] at he'
        rw [he']
  | ok r =>
      rcases scrapeBody_ok fetch url r hsb with ⟨he, hs⟩ | hfail
      · exact ⟨fun _ => hs, fun e' he' => absurd (he ▸ he') (by simp)⟩
      · refine ⟨fun hc => ?_, fun e' he' => ?_⟩
        · rw [hfail] at hc
          exact absurd hc (by simp [emptyResult])
        · rw [hfail] at he' ⊢
          simp only [emptyResult, Option.some.injEq] at he'
          rw [he']

/-- C9 witness: the amended statement at a fetch that returns no content. -/
theorem C9_witness :
    ((scrape_website_contacts (fun _ => Except.ok none)
        "http://w.example" "B").error = none →
      (scrape_website_contacts (fun _ => Except.ok none)
        "http://w.example" "B").source_url = some "http://w.example") ∧
    (∀ e, (scrape_website_contacts (fun _ => Except.ok none)
        "http://w.example" "B").error = some e →
      scrape_website_contacts (fun _ => Except.ok none)
        "http://w.example" "B" = emptyResult e) :=
  C9_amended (fun _ => Except.ok none) "http://w.example" "B" (by decide)

/-! ## C10 — empty-URL businesses skipped by the batch, restored downstream -/

/-- C10: a business mapped to a falsy URL is never submitted to the worker
pool and gets no entry at all — not even an error entry — in the batch
result; reconciliation then re-emits it only because the missing lookup is
replaced by the empty contact dictionary, producing a record with empty
fields. -/
theorem C10_skipped (fetch : String → Except String (Option Page))
    (items : List (String × String)) (b : String)
    (hmem : (b, "") ∈ items) (hnd : (items.map Prod.fst).Nodup) :
    b ∉ (batch_scrape_contacts fetch items).map Prod.fst ∧
    ∃ r ∈ (prepare_final_data items (batch_scrape_contacts fetch items)).1,
      r.business_name = b ∧ r.website_url = "" ∧ r.emails = [] ∧
      r.phones = [] ∧ r.social_media = [] ∧ r.errors = "" := by
  have hnotin : b ∉ (batch_scrape_contacts fetch items).map Prod.fst := by
    intro hb
    unfold batch_scrape_contacts at hb
    rw [List.map_map] at hb
    rcases List.mem_map.mp hb with ⟨q, hq, hqb⟩
    obtain ⟨hqi, hq2⟩ := List.mem_filter.mp hq
    have hq1 : q.1 = b := hqb
    have hqpair : (b, q.2) ∈ items := by
      rw [← hq1]
      exact hqi
    have : q.2 = "" := keys_nodup_unique hnd hqpair hmem
    rw [this] at hq2
    exact absurd (of_decide_eq_true hq2) (by simp)
  refine ⟨hnotin, ?_⟩
  have hl : (batch_scrape_contacts fetch items).lookup b = none :=
    lookup_eq_none_of_not_mem _ _ hnotin
  have hm := prepare_mem items (batch_scrape_contacts fetch items) b "" hmem
  rw [hl] at hm
  exact ⟨mkRecord b "" emptyContacts, hm, rfl, rfl, rfl, rfl, rfl, rfl⟩

/-- C10 witness: one business with an empty URL. -/
theorem C10_witness :
    "B" ∉ (batch_scrape_contacts (fun _ => Except.ok none)
      [("B", "")]).map Prod.fst ∧
    ∃ r ∈ (prepare_final_data [("B", "")]
        (batch_scrape_contacts (fun _ => Except.ok none) [("B", "")])).1,
      r.business_name = "B" ∧ r.website_url = "" ∧ r.emails = [] ∧
      r.phones = [] ∧ r.social_media = [] ∧ r.errors = "" :=
  C10_skipped (fun _ => Except.ok none) [("B", "")] "B" (by decide)
    (by decide)

end BDS
